import Mathlib

/-!
Shallow embedding of the NiFi backup/rollback scripts
(`scripts/rollback_nifi_automated.py`, `scripts/backup_nifi.py`).

The remote NiFi server is modelled as the in-memory component tree the
scripts read through `get_all_components`; each remote call the scripts
issue becomes an event in an explicit trace, and the success or failure
of an individual call is decided by an oracle (a function from component
id, or from call index, to Bool), matching the scripts' per-call
`try/except` / status-code handling.
-/

namespace Nifi

/-- One live component entity as returned by `get_all_components`:
its server-assigned `id`, its optimistic-concurrency `revision.version`,
and its display name. -/
structure LiveComp where
  id : Nat
  version : Nat
  name : String
deriving DecidableEq, Repr

/-- One level of the live graph (the dict returned by
`get_all_components`), together with the group's own entity data:
`connections`, `processors`, `inputPorts`, `outputPorts`, `funnels`,
and the nested `processGroups`. -/
inductive LiveGroup where
  | mk (self : LiveComp)
       (connections : List LiveComp)
       (processors : List LiveComp)
       (inputPorts : List LiveComp)
       (outputPorts : List LiveComp)
       (funnels : List LiveComp)
       (children : List LiveGroup)

def LiveGroup.self : LiveGroup → LiveComp
  | .mk s _ _ _ _ _ _ => s

def LiveGroup.connections : LiveGroup → List LiveComp
  | .mk _ c _ _ _ _ _ => c

def LiveGroup.processors : LiveGroup → List LiveComp
  | .mk _ _ p _ _ _ _ => p

def LiveGroup.inputPorts : LiveGroup → List LiveComp
  | .mk _ _ _ i _ _ _ => i

def LiveGroup.outputPorts : LiveGroup → List LiveComp
  | .mk _ _ _ _ o _ _ => o

def LiveGroup.funnels : LiveGroup → List LiveComp
  | .mk _ _ _ _ _ f _ => f

def LiveGroup.children : LiveGroup → List LiveGroup
  | .mk _ _ _ _ _ _ g => g

/-- The component-type segment of the DELETE url
(`/nifi-api/{component_type}/{id}?version={v}`). -/
inductive DelKind where
  | connection
  | processor
  | inputPort
  | outputPort
  | funnel
  | processGroup
deriving DecidableEq, Repr

/-- One `delete_component` call: kind, target id, and the
`version` query parameter taken from the entity's revision. -/
structure DelCall where
  kind : DelKind
  id : Nat
  version : Nat
deriving DecidableEq, Repr

/-- One `for`-loop over one component list in `delete_all_components`:
each entry gets exactly one `delete_component` call (the call is always
issued), and `deleted_count` is incremented only when the call does not
raise — modelled by the failure oracle `fail` on the component id. -/
def delLoop (fail : Nat → Bool) (k : DelKind) : List LiveComp → Nat × List DelCall
  | [] => (0, [])
  | c :: rest =>
      let r := delLoop fail k rest
      ((if fail c.id then 0 else 1) + r.1, ⟨k, c.id, c.version⟩ :: r.2)

/-- Result of `delete_all_components` on one group: the returned
`deleted_count`, the trace of delete calls issued, and the residual
contents of the group on the server (a failed delete leaves the
component in place). -/
structure TdResult where
  count : Nat
  trace : List DelCall
  residual : LiveGroup

/-- Result of the child-process-group loop of `delete_all_components`. -/
structure TdChildrenResult where
  count : Nat
  trace : List DelCall
  residual : List LiveGroup

mutual

/-- `delete_all_components(token, pg_id)`: deletes, in order, all
connections, processors, input ports, output ports, funnels, then each
child process group (contents first, then the group itself).  The
recursive call's count is discarded by the source (`delete_all_components`
is called for its effect only inside the child loop), so `count` only
reflects this level's own deletions. -/
def delete_all_components (fail : Nat → Bool) : LiveGroup → TdResult
  | .mk s cs ps is os fs gs =>
      let r1 := delLoop fail .connection cs
      let r2 := delLoop fail .processor ps
      let r3 := delLoop fail .inputPort is
      let r4 := delLoop fail .outputPort os
      let r5 := delLoop fail .funnel fs
      let r6 := deleteChildren fail gs
      { count := r1.1 + r2.1 + r3.1 + r4.1 + r5.1 + r6.count
        trace := r1.2 ++ r2.2 ++ r3.2 ++ r4.2 ++ r5.2 ++ r6.trace
        residual := .mk s (cs.filter (fun c => fail c.id))
            (ps.filter (fun c => fail c.id)) (is.filter (fun c => fail c.id))
            (os.filter (fun c => fail c.id)) (fs.filter (fun c => fail c.id))
            r6.residual }

/-- The `for child_group in flow.get('processGroups', [])` loop: for each
child, first `delete_all_components(child)` (return value discarded),
then one `delete_component('process-groups', child_id, version)`; the
count increment covers only the child group's own delete call. -/
def deleteChildren (fail : Nat → Bool) : List LiveGroup → TdChildrenResult
  | [] => { count := 0, trace := [], residual := [] }
  | g :: rest =>
      let inner := delete_all_components fail g
      let r := deleteChildren fail rest
      { count := (if fail g.self.id then 0 else 1) + r.count
        trace := (inner.trace ++ [⟨.processGroup, g.self.id, g.self.version⟩]) ++ r.trace
        residual := (if fail g.self.id then [inner.residual] else []) ++ r.residual }

end

/-- Number of components listed directly in one group's flow (each child
process group counting as one). -/
def directCount (g : LiveGroup) : Nat :=
  g.connections.length + g.processors.length + g.inputPorts.length +
    g.outputPorts.length + g.funnels.length + g.children.length

mutual

/-- Total number of non-root components in the subtree: every component
at every depth, each nested process group itself included. -/
def totalComponents : LiveGroup → Nat
  | .mk _ cs ps is os fs gs =>
      cs.length + ps.length + is.length + os.length + fs.length +
        totalComponentsList gs

def totalComponentsList : List LiveGroup → Nat
  | [] => 0
  | g :: rest => 1 + totalComponents g + totalComponentsList rest

end

mutual

/-- The ids of all non-root components of the subtree (the ids a
teardown of this group may target). -/
def contentIds : LiveGroup → List Nat
  | .mk _ cs ps is os fs gs =>
      (cs ++ ps ++ is ++ os ++ fs).map (fun c => c.id) ++ contentIdsList gs

def contentIdsList : List LiveGroup → List Nat
  | [] => []
  | g :: rest => g.self.id :: (contentIds g ++ contentIdsList rest)

end

/-!
Replication (`import_process_group_recursively` / `upload_flow_to_nifi`).

Snapshot nodes carry the ids stored in the backup file; the scripts
unwrap the NiFi entity envelope with `x.get('component', x)`, which the
model treats as already done.  The target server is an oracle `Server`
indexed by a running call counter: the n-th POST either fails
(`ok n = false`, a non-200/201 status) or succeeds and assigns the fresh
identifier `fresh n`.  Floating-point position payloads are modelled as
one opaque numeric token (they never influence control flow).
-/

/-- A snapshot processor / port / funnel component as stored in the
backup: its original id plus its (opaque, verbatim-copied) body,
represented by the display name. -/
structure SnapComp where
  id : Nat
  name : String
deriving DecidableEq, Repr

/-- A snapshot connection component: its original id and the source and
destination component ids recorded in the backup. -/
structure SnapConn where
  id : Nat
  sourceId : Nat
  destId : Nat
deriving DecidableEq, Repr

/-- A snapshot process group (`pg_data` with its `contents`): name and
position are the only fields the group-create payload uses; the stored
`id` is never sent. -/
inductive SnapPG where
  | mk (id : Nat) (name : String) (position : Nat)
       (processors : List SnapComp)
       (connections : List SnapConn)
       (inputPorts : List SnapComp)
       (outputPorts : List SnapComp)
       (funnels : List SnapComp)
       (children : List SnapPG)

def SnapPG.id : SnapPG → Nat
  | .mk i _ _ _ _ _ _ _ _ => i

def SnapPG.name : SnapPG → String
  | .mk _ n _ _ _ _ _ _ _ => n

def SnapPG.position : SnapPG → Nat
  | .mk _ _ p _ _ _ _ _ _ => p

def SnapPG.processors : SnapPG → List SnapComp
  | .mk _ _ _ ps _ _ _ _ _ => ps

def SnapPG.connections : SnapPG → List SnapConn
  | .mk _ _ _ _ cs _ _ _ _ => cs

def SnapPG.inputPorts : SnapPG → List SnapComp
  | .mk _ _ _ _ _ is _ _ _ => is

def SnapPG.outputPorts : SnapPG → List SnapComp
  | .mk _ _ _ _ _ _ os _ _ => os

def SnapPG.funnels : SnapPG → List SnapComp
  | .mk _ _ _ _ _ _ _ fs _ => fs

def SnapPG.children : SnapPG → List SnapPG
  | .mk _ _ _ _ _ _ _ _ gs => gs

/-- One POST issued during replication.  Every create call carries
`revision.version = 0` in the source; the payload is the snapshot
component copied verbatim (for a process group, only name and position). -/
inductive CreateCall where
  | processGroup (parent : Nat) (name : String) (position : Nat)
  | processor (parent : Nat) (comp : SnapComp)
  | connection (parent : Nat) (comp : SnapConn)
  | inputPort (parent : Nat) (comp : SnapComp)
  | outputPort (parent : Nat) (comp : SnapComp)
  | funnel (parent : Nat) (comp : SnapComp)
deriving DecidableEq, Repr

/-- The target NiFi server's responses, indexed by call number: whether
the n-th create call returns a 200/201 status, and the id it assigns to
the created component when it does. -/
structure Server where
  ok : Nat → Bool
  fresh : Nat → Nat

/-- Result of one replication step: the `imported` count contributed,
the trace of create calls issued, and the next call number. -/
structure ImpResult where
  count : Nat
  trace : List CreateCall
  next : Nat
deriving Repr

/-- One of the per-kind `for`-loops issuing a single create call per
snapshot component: the call is always issued, the count records only
the 200/201 responses, and a failing item never stops the loop. -/
def importLoop (srv : Server) (mkCall : α → CreateCall) :
    Nat → List α → ImpResult
  | n, [] => { count := 0, trace := [], next := n }
  | n, c :: rest =>
      let r := importLoop srv mkCall (n + 1) rest
      { count := (if srv.ok n then 1 else 0) + r.count
        trace := mkCall c :: r.trace
        next := r.next }

mutual

/-- `import_process_group_recursively(token, parent_pg_id, pg_data)`:
first POST the group itself under `parent` (payload: name and position
only, revision 0); on a non-success status return 0 immediately, touching
none of the contents; on success use the server-assigned id as the parent
for the contents, imported in the order processors, connections, input
ports, output ports, funnels, then child groups recursively. -/
def import_process_group_recursively (srv : Server) (parent : Nat) (n : Nat) :
    SnapPG → ImpResult
  | .mk _ name pos ps cs is os fs gs =>
      if srv.ok n then
        let newId := srv.fresh n
        let r1 := importLoop srv (fun c => .processor newId c) (n + 1) ps
        let r2 := importLoop srv (fun c => .connection newId c) r1.next cs
        let r3 := importLoop srv (fun c => .inputPort newId c) r2.next is
        let r4 := importLoop srv (fun c => .outputPort newId c) r3.next os
        let r5 := importLoop srv (fun c => .funnel newId c) r4.next fs
        let r6 := importChildrenLoop srv newId r5.next gs
        { count := 1 + r1.count + r2.count + r3.count + r4.count +
            r5.count + r6.count
          trace := CreateCall.processGroup parent name pos ::
            (r1.trace ++ r2.trace ++ r3.trace ++ r4.trace ++ r5.trace ++
              r6.trace)
          next := r6.next }
      else
        { count := 0
          trace := [CreateCall.processGroup parent name pos]
          next := n + 1 }

/-- The loop over a list of snapshot process groups (both the nested
`contents['processGroups']` loop and the top-level
`flow_contents['processGroups']` loop): each group is imported in turn
and its count added; an individual failure moves on to the next sibling. -/
def importChildrenLoop (srv : Server) (parent : Nat) (n : Nat) :
    List SnapPG → ImpResult
  | [] => { count := 0, trace := [], next := n }
  | g :: rest =>
      let r := import_process_group_recursively srv parent n g
      let r2 := importChildrenLoop srv parent r.next rest
      { count := r.count + r2.count, trace := r.trace ++ r2.trace
        next := r2.next }

end

/-- The value returned by `upload_flow_to_nifi`: the dict
`{'imported': imported}` — the total successful creations and nothing
else. -/
structure UploadResult where
  imported : Nat
deriving DecidableEq, Repr

/-- `upload_flow_to_nifi(token, process_group_id, flow_json)` on the
decoded `flowContents`: first every top-level process group is imported
recursively under `target`, then the top-level processors, connections,
input ports and output ports are imported directly against `target`.
Top-level funnels have no import loop in the source.  Only the total
count is returned. -/
def upload_flow_to_nifi (srv : Server) (target : Nat) (n : Nat)
    (flow : SnapPG) : UploadResult × List CreateCall × Nat :=
  let r0 := importChildrenLoop srv target n flow.children
  let r1 := importLoop srv (fun c => .processor target c) r0.next flow.processors
  let r2 := importLoop srv (fun c => .connection target c) r1.next flow.connections
  let r3 := importLoop srv (fun c => .inputPort target c) r2.next flow.inputPorts
  let r4 := importLoop srv (fun c => .outputPort target c) r3.next flow.outputPorts
  (⟨r0.count + r1.count + r2.count + r3.count + r4.count⟩,
    r0.trace ++ r1.trace ++ r2.trace ++ r3.trace ++ r4.trace,
    r4.next)

/-- Number of calls in a trace segment starting at call number `n` that
the server answers with a success status. -/
def countOk (srv : Server) : Nat → List CreateCall → Nat
  | _, [] => 0
  | n, _ :: rest => (if srv.ok n then 1 else 0) + countOk srv (n + 1) rest

/-!
Statistics aggregation (`count_components_recursive` in
`scripts/backup_nifi.py`).  In the NiFi backup format a nested process
group object holds its component lists directly, so one node type with
the seven counted lists suffices; list elements are opaque (only their
number matters to the counter, via `len`).
-/

/-- One node of the decoded backup's `flowContents` tree: the component
lists counted by the backup script, plus the nested `processGroups`. -/
inductive FlowNode where
  | mk (processors : List String)
       (connections : List String)
       (inputPorts : List String)
       (outputPorts : List String)
       (funnels : List String)
       (labels : List String)
       (processGroups : List FlowNode)

def FlowNode.processGroups : FlowNode → List FlowNode
  | .mk _ _ _ _ _ _ gs => gs

/-- The `stats` dict built by `count_components_recursive`. -/
structure Stats where
  process_groups : Nat
  processors : Nat
  connections : Nat
  input_ports : Nat
  output_ports : Nat
  funnels : Nat
  labels : Nat
deriving DecidableEq, Repr

mutual

/-- `count_components_recursive(flow_contents)`: count the six component
lists at this level with `len`, then for each nested process group add 1
to `process_groups` and add the child's recursively computed stats
(including the child's own `process_groups`). -/
def count_components_recursive : FlowNode → Stats
  | .mk ps cs is os fs ls gs =>
      let child := countChildGroups gs
      { process_groups := child.process_groups
        processors := ps.length + child.processors
        connections := cs.length + child.connections
        input_ports := is.length + child.input_ports
        output_ports := os.length + child.output_ports
        funnels := fs.length + child.funnels
        labels := ls.length + child.labels }

/-- The `for pg in flow_contents.get('processGroups', [])` summation
loop of `count_components_recursive`. -/
def countChildGroups : List FlowNode → Stats
  | [] => ⟨0, 0, 0, 0, 0, 0, 0⟩
  | pg :: rest =>
      let c := count_components_recursive pg
      let r := countChildGroups rest
      { process_groups := 1 + c.process_groups + r.process_groups
        processors := c.processors + r.processors
        connections := c.connections + r.connections
        input_ports := c.input_ports + r.input_ports
        output_ports := c.output_ports + r.output_ports
        funnels := c.funnels + r.funnels
        labels := c.labels + r.labels }

end

mutual

/-- Stated from the spec's words, for comparison with the source-derived
counter: the number of ProcessGroup nodes in the tree excluding the root
node itself — each nested group contributes itself plus its own strict
descendants, so every non-root group node is counted exactly once. -/
def pgNodesBelow : FlowNode → Nat
  | .mk _ _ _ _ _ _ gs => pgNodesBelowList gs

def pgNodesBelowList : List FlowNode → Nat
  | [] => 0
  | g :: rest => 1 + pgNodesBelow g + pgNodesBelowList rest

end

/-!
Snapshot decoding (`download_backup` in
`scripts/rollback_nifi_automated.py`).  Byte strings are `List Nat`.
The gzip collaborator is modelled by its framing behaviour, which is all
the script's exception handling distinguishes: compression prepends the
two gzip magic bytes `0x1f 0x8b` and decompression recovers the payload
exactly when they are present, raising `BadGzipFile` (here `none`)
otherwise.  `json.loads` validity is modelled by an executable
recursive-descent JSON syntax checker over the byte string.
-/

/-- The gzip magic framing of `gzip.compress`. -/
def gzip_compress (b : List Nat) : List Nat := 0x1f :: 0x8b :: b

/-- `gzip.decompress`, at the granularity `download_backup` observes:
payload recovery on a gzip stream, `BadGzipFile` (`none`) on bytes that
do not start with the gzip magic. -/
def gzip_decompress (b : List Nat) : Option (List Nat) :=
  match b with
  | b0 :: b1 :: rest =>
      if b0 = 0x1f then if b1 = 0x8b then some rest else none else none
  | _ => none

/-- JSON insignificant whitespace (space, tab, newline, carriage return). -/
def isJsonWs (c : Nat) : Bool :=
  c = 0x20 || c = 0x09 || c = 0x0a || c = 0x0d

def skipWs : List Nat → List Nat
  | [] => []
  | c :: rest => if isJsonWs c then skipWs rest else c :: rest

def isDigit (c : Nat) : Bool := 0x30 ≤ c && c ≤ 0x39

/-- Scan a JSON string body after the opening quote: any byte until the
closing quote, a backslash escaping the byte after it. -/
def scanString : List Nat → Option (List Nat)
  | [] => none
  | c :: rest =>
      if c = 0x22 then some rest
      else if c = 0x5c then
        match rest with
        | [] => none
        | _ :: rest2 => scanString rest2
      else scanString rest

def scanDigits : List Nat → List Nat
  | [] => []
  | c :: rest => if isDigit c then scanDigits rest else c :: rest

/-- Scan one or more digits. -/
def scanDigits1 (b : List Nat) : Option (List Nat) :=
  match b with
  | c :: _ => if isDigit c then some (scanDigits b) else none
  | [] => none

/-- Scan a JSON number after an optional leading minus: integer part,
optional fraction, optional exponent. -/
def scanNumberTail (b : List Nat) : Option (List Nat) := do
  let b ← scanDigits1 b
  let b ←
    match b with
    | c :: rest => if c = 0x2e then scanDigits1 rest else some b
    | [] => some b
  match b with
  | c :: rest =>
      if c = 0x65 || c = 0x45 then
        match rest with
        | d :: rest2 =>
            if d = 0x2b || d = 0x2d then scanDigits1 rest2 else scanDigits1 rest
        | [] => none
      else some b
  | [] => some b

/-- Check that `b` starts with `lit`, returning the remainder. -/
def scanLit : List Nat → List Nat → Option (List Nat)
  | [], b => some b
  | _ :: _, [] => none
  | l :: ls, c :: rest => if c = l then scanLit ls rest else none

/-- The syntactic role the scanner is currently checking: a JSON value,
the inside of an object or array just after its opening bracket, or the
member/element list of one. -/
inductive ScanMode where
  | value
  | objectBody
  | members
  | arrayBody
  | elements

/-- Fuelled recursive-descent check of JSON syntax, returning the
unconsumed remainder on success; the fuel only bounds nesting and list
length and is chosen large enough by `isValidJson`. -/
def scanJson : Nat → ScanMode → List Nat → Option (List Nat)
  | 0, _, _ => none
  | fuel + 1, mode, b =>
      match mode with
      | .value =>
          match skipWs b with
          | [] => none
          | c :: rest =>
              if c = 0x22 then scanString rest
              else if c = 0x7b then scanJson fuel .objectBody rest
              else if c = 0x5b then scanJson fuel .arrayBody rest
              else if c = 0x74 then scanLit [0x72, 0x75, 0x65] rest
              else if c = 0x66 then scanLit [0x61, 0x6c, 0x73, 0x65] rest
              else if c = 0x6e then scanLit [0x75, 0x6c, 0x6c] rest
              else if c = 0x2d then scanNumberTail rest
              else if isDigit c then scanNumberTail (c :: rest)
              else none
      | .objectBody =>
          match skipWs b with
          | [] => none
          | c :: rest =>
              if c = 0x7d then some rest else scanJson fuel .members (c :: rest)
      | .members => do
          let b1 ←
            match skipWs b with
            | c :: rest => if c = 0x22 then scanString rest else none
            | [] => none
          let b2 ←
            match skipWs b1 with
            | c :: rest => if c = 0x3a then some rest else none
            | [] => none
          let b3 ← scanJson fuel .value b2
          match skipWs b3 with
          | c :: rest =>
              if c = 0x2c then scanJson fuel .members rest
              else if c = 0x7d then some rest
              else none
          | [] => none
      | .arrayBody =>
          match skipWs b with
          | [] => none
          | c :: rest =>
              if c = 0x5d then some rest else scanJson fuel .elements (c :: rest)
      | .elements => do
          let b1 ← scanJson fuel .value b
          match skipWs b1 with
          | c :: rest =>
              if c = 0x2c then scanJson fuel .elements rest
              else if c = 0x5d then some rest
              else none
          | [] => none

/-- `json.loads(flow_json)` succeeding: one JSON value followed only by
whitespace. -/
def isValidJson (b : List Nat) : Bool :=
  match scanJson (2 * b.length + 2) .value b with
  | some rest => (skipWs rest).isEmpty
  | none => false

/-- The content sniff of `download_backup`: try `gzip.decompress` and on
`BadGzipFile` fall back to the raw bytes. -/
def sniffed (b : List Nat) : List Nat :=
  match gzip_decompress b with
  | some payload => payload
  | none => b

/-- The decode half of `download_backup`: sniff the encoding, then
require the result to parse as JSON (`json.loads`); a parse failure is
raised as an error (`none`) instead of returning bytes. -/
def decode_snapshot (b : List Nat) : Option (List Nat) :=
  let flow := sniffed b
  if isValidJson flow then some flow else none


/-!
Lemmas about the teardown orchestrator.
-/

/-- A trace is issued for every entry of a component list, in list
order, one call each. -/
theorem delLoop_trace (fail : Nat → Bool) (k : DelKind) (cs : List LiveComp) :
    (delLoop fail k cs).2 = cs.map (fun c => ⟨k, c.id, c.version⟩) := by
  induction cs with
  | nil => rfl
  | cons c rest ih => simp [delLoop, ih]

/-- `deleted_count` for one list: successes are exactly the entries the
oracle does not fail. -/
theorem delLoop_count (fail : Nat → Bool) (k : DelKind) (cs : List LiveComp) :
    (delLoop fail k cs).1 + cs.countP (fun c => fail c.id) = cs.length := by
  induction cs with
  | nil => rfl
  | cons c rest ih =>
      by_cases h : fail c.id <;>
        simp [delLoop, List.countP_cons, h] <;> omega

/-- Rose-tree induction for the live graph. -/
theorem liveGroupInduction {P : LiveGroup → Prop}
    (h : ∀ s cs ps is os fs gs, (∀ g ∈ gs, P g) → P (.mk s cs ps is os fs gs)) :
    ∀ g, P g
  | .mk s cs ps is os fs gs =>
      h s cs ps is os fs gs (fun g hg =>
        have : sizeOf g < sizeOf (LiveGroup.mk s cs ps is os fs gs) := by
          have := List.sizeOf_lt_of_mem hg
          simp only [LiveGroup.mk.sizeOf_spec]
          omega
        liveGroupInduction h g)
termination_by g => sizeOf g

/-- Every component of the subtree gets exactly one delete call, no
matter which individual deletions fail. -/
theorem trace_length_eq_totalComponents (fail : Nat → Bool) :
    ∀ g, (delete_all_components fail g).trace.length = totalComponents g := by
  have aux : ∀ gs, (∀ g ∈ gs, (delete_all_components fail g).trace.length = totalComponents g) →
      (deleteChildren fail gs).trace.length = totalComponentsList gs := by
    intro gs
    induction gs with
    | nil => intro _; rfl
    | cons g rest ih =>
        intro hmem
        simp [deleteChildren, totalComponentsList, hmem g (by simp),
          ih (fun g' hg' => hmem g' (by simp [hg']))]
        omega
  intro g
  induction g using liveGroupInduction with
  | h s cs ps is os fs gs ihg =>
      simp [delete_all_components, totalComponents, delLoop_trace, aux gs ihg]
      omega

theorem delLoop_noFail_count (k : DelKind) (cs : List LiveComp) :
    (delLoop (fun _ => false) k cs).1 = cs.length := by
  induction cs with
  | nil => rfl
  | cons c rest ih => simp [delLoop, ih]; omega

theorem deleteChildren_noFail (gs : List LiveGroup) :
    (deleteChildren (fun _ => false) gs).count = gs.length ∧
    (deleteChildren (fun _ => false) gs).residual = [] := by
  induction gs with
  | nil => exact ⟨rfl, rfl⟩
  | cons g rest ih => simp [deleteChildren, ih.1, ih.2]; omega

/-- C2 (amended): with no failing delete, teardown returns a count equal
to the number of the root's direct components only — the contents of
nested child groups are deleted (one call per component of the whole
subtree) but their counts are discarded by the recursion — and
afterwards the root group is empty at every depth while the root node
itself survives. -/
theorem teardown_noFail_count_and_empty (g : LiveGroup) :
    (delete_all_components (fun _ => false) g).count = directCount g ∧
    (delete_all_components (fun _ => false) g).trace.length = totalComponents g ∧
    totalComponents (delete_all_components (fun _ => false) g).residual = 0 ∧
    (delete_all_components (fun _ => false) g).residual.self = g.self := by
  refine ⟨?_, trace_length_eq_totalComponents _ g, ?_, ?_⟩
  · cases g with
    | mk s cs ps is os fs gs =>
        simp [delete_all_components, directCount, LiveGroup.connections,
          LiveGroup.processors, LiveGroup.inputPorts, LiveGroup.outputPorts,
          LiveGroup.funnels, LiveGroup.children, delLoop_noFail_count,
          (deleteChildren_noFail gs).1]
  · cases g with
    | mk s cs ps is os fs gs =>
        simp [delete_all_components, totalComponents, totalComponentsList,
          (deleteChildren_noFail gs).2]
  · cases g with
    | mk s cs ps is os fs gs =>
        simp [delete_all_components, LiveGroup.self]

/-- The root of the C2 counterexample: a root group whose only direct
component is one child group, which in turn contains one processor. -/
def c2root : LiveGroup :=
  .mk ⟨1, 0, "root"⟩ [] [] [] [] []
    [.mk ⟨50, 2, "child"⟩ [] [⟨100, 3, "P"⟩] [] [] [] []]

/-- C2 counterexample: the graph `c2root` has N = 2 non-root components
and no delete fails, yet `delete_all_components` returns 1, not N — the
nested processor's deletion is performed but not counted. -/
theorem teardown_count_counterexample :
    totalComponents c2root = 2 ∧
    (delete_all_components (fun _ => false) c2root).count = 1 := by
  decide

theorem deleteChildren_trace (fail : Nat → Bool) (gs : List LiveGroup) :
    (deleteChildren fail gs).trace =
      (gs.map (fun ch => (delete_all_components fail ch).trace ++
        [⟨.processGroup, ch.self.id, ch.self.version⟩])).flatten := by
  induction gs with
  | nil => rfl
  | cons g rest ih => simp [deleteChildren, ih]

theorem getElem?_map_of_getElem? {α β : Type} (f : α → β) {l : List α}
    {i : Nat} {a : α} (h : l[i]? = some a) : (l.map f)[i]? = some (f a) := by
  rw [List.getElem?_map, h]; rfl

theorem getElem?_append_left_of {α : Type} {A B : List α} {i : Nat} {a : α}
    (h : A[i]? = some a) : (A ++ B)[i]? = some a := by
  have hi : i < A.length := by
    by_contra hge
    rw [List.getElem?_eq_none (Nat.le_of_not_lt hge)] at h
    exact Option.noConfusion h
  rw [List.getElem?_append_left hi]; exact h

/-- The shape of one level's delete trace: the five per-kind blocks in
source order followed by the per-child blocks. -/
theorem teardown_trace_decomp (fail : Nat → Bool) (g : LiveGroup) :
    (delete_all_components fail g).trace =
      g.connections.map (fun c => ⟨.connection, c.id, c.version⟩) ++
      (g.processors.map (fun c => ⟨.processor, c.id, c.version⟩) ++
      (g.inputPorts.map (fun c => ⟨.inputPort, c.id, c.version⟩) ++
      (g.outputPorts.map (fun c => ⟨.outputPort, c.id, c.version⟩) ++
      (g.funnels.map (fun c => ⟨.funnel, c.id, c.version⟩) ++
      (g.children.map (fun ch => (delete_all_components fail ch).trace ++
        [⟨.processGroup, ch.self.id, ch.self.version⟩])).flatten)))) := by
  obtain ⟨s, cs, ps, is, os, fs, gs⟩ := g
  simp [delete_all_components, delLoop_trace, deleteChildren_trace,
    LiveGroup.connections, LiveGroup.processors, LiveGroup.inputPorts,
    LiveGroup.outputPorts, LiveGroup.funnels, LiveGroup.children]

/-- C6: per level, teardown issues all Connection deletes first, then all
Processor deletes, then InputPorts, OutputPorts, Funnels, then each child
group (its contents before the group itself); positionally, the delete
call for the i-th Connection of a level sits at index i of that level's
trace and the delete call for the j-th Processor at index
`connections.length + j`, so every Connection delete strictly precedes
every Processor delete of the same level. -/
theorem teardown_level_order (fail : Nat → Bool) (g : LiveGroup) :
    ((delete_all_components fail g).trace =
      g.connections.map (fun c => ⟨.connection, c.id, c.version⟩) ++
      (g.processors.map (fun c => ⟨.processor, c.id, c.version⟩) ++
      (g.inputPorts.map (fun c => ⟨.inputPort, c.id, c.version⟩) ++
      (g.outputPorts.map (fun c => ⟨.outputPort, c.id, c.version⟩) ++
      (g.funnels.map (fun c => ⟨.funnel, c.id, c.version⟩) ++
      (g.children.map (fun ch => (delete_all_components fail ch).trace ++
        [⟨.processGroup, ch.self.id, ch.self.version⟩])).flatten))))) ∧
    (∀ (i : Nat) (c : LiveComp), g.connections[i]? = some c →
      (delete_all_components fail g).trace[i]? =
        some ⟨.connection, c.id, c.version⟩) ∧
    (∀ (j : Nat) (p : LiveComp), g.processors[j]? = some p →
      (delete_all_components fail g).trace[g.connections.length + j]? =
        some ⟨.processor, p.id, p.version⟩) := by
  have hdec := teardown_trace_decomp fail g
  refine ⟨hdec, ?_, ?_⟩
  · intro i c hc
    rw [hdec]
    exact getElem?_append_left_of (getElem?_map_of_getElem?
      (fun c => (⟨.connection, c.id, c.version⟩ : DelCall)) hc)
  · intro j p hp
    rw [hdec, List.getElem?_append_right (by simp), List.length_map,
      Nat.add_sub_cancel_left]
    exact getElem?_append_left_of (getElem?_map_of_getElem?
      (fun c => (⟨.processor, c.id, c.version⟩ : DelCall)) hp)

/-- The level of the C6 witness scenario: one Connection between two
Processors. -/
def c6group : LiveGroup :=
  .mk ⟨1, 0, "root"⟩ [⟨9, 1, "conn"⟩] [⟨10, 2, "P1"⟩, ⟨11, 2, "P2"⟩] [] [] [] []

/-- Witness for C6: in the one-connection/two-processor group the
Connection's delete call occupies index 0 of the trace and the first
Processor's delete call the strictly later index `connections.length`. -/
theorem teardown_level_order_witness :
    c6group.connections[0]? = some ⟨9, 1, "conn"⟩ ∧
    c6group.processors[0]? = some ⟨10, 2, "P1"⟩ ∧
    (delete_all_components (fun _ => false) c6group).trace[0]? =
      some ⟨.connection, 9, 1⟩ ∧
    (delete_all_components (fun _ => false) c6group).trace[c6group.connections.length + 0]? =
      some ⟨.processor, 10, 2⟩ :=
  ⟨by decide, by decide,
    (teardown_level_order (fun _ => false) c6group).2.1 0 ⟨9, 1, "conn"⟩ (by decide),
    (teardown_level_order (fun _ => false) c6group).2.2 0 ⟨10, 2, "P1"⟩ (by decide)⟩

/-- C7: if the group is a single level (no nested groups) and exactly one
of its Processors fails to delete while every other delete succeeds,
teardown still issues one delete call per component (it never aborts) and
returns `deleted_count` one short of the component count. -/
theorem teardown_partial_failure (fail : Nat → Bool) (g : LiveGroup)
    (hflat : g.children = [])
    (hp : g.processors.countP (fun c => fail c.id) = 1)
    (hc : g.connections.countP (fun c => fail c.id) = 0)
    (hi : g.inputPorts.countP (fun c => fail c.id) = 0)
    (ho : g.outputPorts.countP (fun c => fail c.id) = 0)
    (hf : g.funnels.countP (fun c => fail c.id) = 0) :
    (delete_all_components fail g).count + 1 = directCount g ∧
    (delete_all_components fail g).trace.length = directCount g := by
  obtain ⟨s, cs, ps, is, os, fs, gs⟩ := g
  simp only [LiveGroup.children] at hflat
  subst hflat
  simp only [LiveGroup.processors, LiveGroup.connections, LiveGroup.inputPorts,
    LiveGroup.outputPorts, LiveGroup.funnels] at hp hc hi ho hf
  have e1 := delLoop_count fail .connection cs
  have e2 := delLoop_count fail .processor ps
  have e3 := delLoop_count fail .inputPort is
  have e4 := delLoop_count fail .outputPort os
  have e5 := delLoop_count fail .funnel fs
  constructor
  · simp [delete_all_components, deleteChildren, directCount,
      LiveGroup.connections, LiveGroup.processors, LiveGroup.inputPorts,
      LiveGroup.outputPorts, LiveGroup.funnels, LiveGroup.children]
    omega
  · simp [delete_all_components, deleteChildren, delLoop_trace, directCount,
      LiveGroup.connections, LiveGroup.processors, LiveGroup.inputPorts,
      LiveGroup.outputPorts, LiveGroup.funnels, LiveGroup.children]
    omega

/-- The C7 witness group: three components, the processor with id 10
being the one whose delete is refused. -/
def c7group : LiveGroup :=
  .mk ⟨2, 0, "flat"⟩ [⟨9, 1, "conn"⟩] [⟨10, 2, "P1"⟩, ⟨11, 2, "P2"⟩] [] [] [] []

/-- Witness for C7: with N = 3 components and exactly the one processor
delete failing, teardown reports 2 deletions and still issued 3 calls. -/
theorem teardown_partial_failure_witness :
    c7group.children = [] ∧
    c7group.processors.countP (fun c => (fun i => i = 10 : Nat → Bool) c.id) = 1 ∧
    (delete_all_components (fun i => i = 10) c7group).count + 1 = directCount c7group ∧
    (delete_all_components (fun i => i = 10) c7group).trace.length = directCount c7group :=
  ⟨rfl, by decide,
    (teardown_partial_failure (fun i => i = 10) c7group rfl (by decide)
      (by decide) (by decide) (by decide) (by decide)).1,
    (teardown_partial_failure (fun i => i = 10) c7group rfl (by decide)
      (by decide) (by decide) (by decide) (by decide)).2⟩

theorem deleteChildren_trace_ids (fail : Nat → Bool) (gs : List LiveGroup)
    (hmem : ∀ g ∈ gs, ∀ c ∈ (delete_all_components fail g).trace,
      c.id ∈ contentIds g) :
    ∀ c ∈ (deleteChildren fail gs).trace, c.id ∈ contentIdsList gs := by
  induction gs with
  | nil => intro c hc; simp [deleteChildren] at hc
  | cons g rest ih =>
      intro c hc
      simp only [deleteChildren, List.mem_append, List.mem_singleton] at hc
      rcases hc with (hinner | hself) | hrest
      · simp [contentIdsList, hmem g (by simp) c hinner]
      · subst hself
        simp [contentIdsList]
      · have := ih (fun g' hg' => hmem g' (List.mem_cons_of_mem _ hg')) c hrest
        simp [contentIdsList, this]

theorem trace_ids_subset (fail : Nat → Bool) :
    ∀ g : LiveGroup, ∀ c ∈ (delete_all_components fail g).trace,
      c.id ∈ contentIds g := by
  intro g
  induction g using liveGroupInduction with
  | h s cs ps is os fs gs ihg =>
      intro c hc
      simp only [delete_all_components, delLoop_trace, List.mem_append] at hc
      simp only [contentIds, List.map_append, List.mem_append, List.mem_map]
      rcases hc with ((((h1 | h2) | h3) | h4) | h5) | h6
      · obtain ⟨x, hx, rfl⟩ := List.mem_map.mp h1
        exact Or.inl (Or.inl (Or.inl (Or.inl (Or.inl ⟨x, hx, rfl⟩))))
      · obtain ⟨x, hx, rfl⟩ := List.mem_map.mp h2
        exact Or.inl (Or.inl (Or.inl (Or.inl (Or.inr ⟨x, hx, rfl⟩))))
      · obtain ⟨x, hx, rfl⟩ := List.mem_map.mp h3
        exact Or.inl (Or.inl (Or.inl (Or.inr ⟨x, hx, rfl⟩)))
      · obtain ⟨x, hx, rfl⟩ := List.mem_map.mp h4
        exact Or.inl (Or.inl (Or.inr ⟨x, hx, rfl⟩))
      · obtain ⟨x, hx, rfl⟩ := List.mem_map.mp h5
        exact Or.inl (Or.inr ⟨x, hx, rfl⟩)
      · exact Or.inr (deleteChildren_trace_ids fail gs ihg c h6)

/-- C9: every delete call of a teardown targets an id drawn from the
root's contents, so when the root's own id does not occur among its
(transitive) contents — as server-assigned ids are unique — no delete
call ever targets the root group itself. -/
theorem teardown_spares_root (fail : Nat → Bool) (g : LiveGroup) (c : DelCall)
    (hc : c ∈ (delete_all_components fail g).trace) :
    c.id ∈ contentIds g ∧
    (g.self.id ∉ contentIds g → c.id ≠ g.self.id) := by
  refine ⟨trace_ids_subset fail g c hc, ?_⟩
  intro hroot heq
  exact hroot (heq ▸ trace_ids_subset fail g c hc)

/-- The C9 witness graph: a root with one child group holding one
processor; all ids distinct. -/
def c9root : LiveGroup :=
  .mk ⟨1, 0, "root"⟩ [] [] [] [] []
    [.mk ⟨50, 2, "child"⟩ [] [⟨100, 3, "P"⟩] [] [] [] []]

/-- Witness for C9: the nested processor's delete call targets an id in
the root's contents and differs from the root's own id. -/
theorem teardown_spares_root_witness :
    (⟨DelKind.processor, 100, 3⟩ : DelCall) ∈
      (delete_all_components (fun _ => false) c9root).trace ∧
    c9root.self.id ∉ contentIds c9root ∧
    (⟨DelKind.processor, 100, 3⟩ : DelCall).id ≠ c9root.self.id :=
  ⟨by decide, by decide,
    (teardown_spares_root (fun _ => false) c9root ⟨DelKind.processor, 100, 3⟩
      (by decide)).2 (by decide)⟩


/-!
Lemmas about the replication engine.
-/

theorem importLoop_trace {α : Type} (srv : Server) (mkCall : α → CreateCall) :
    ∀ (n : Nat) (xs : List α), (importLoop srv mkCall n xs).trace = xs.map mkCall := by
  intro n xs
  induction xs generalizing n with
  | nil => rfl
  | cons x rest ih => simp [importLoop, ih]

theorem importLoop_next {α : Type} (srv : Server) (mkCall : α → CreateCall) :
    ∀ (n : Nat) (xs : List α),
      (importLoop srv mkCall n xs).next = n + (importLoop srv mkCall n xs).trace.length := by
  intro n xs
  induction xs generalizing n with
  | nil => rfl
  | cons x rest ih => simp [importLoop, ih (n + 1)]; omega

theorem countOk_append (srv : Server) :
    ∀ (t1 t2 : List CreateCall) (n : Nat),
      countOk srv n (t1 ++ t2) = countOk srv n t1 + countOk srv (n + t1.length) t2 := by
  intro t1
  induction t1 with
  | nil => intro t2 n; simp [countOk]
  | cons x rest ih =>
      intro t2 n
      have h1 : countOk srv n ((x :: rest) ++ t2) =
          (if srv.ok n then 1 else 0) + countOk srv (n + 1) (rest ++ t2) := rfl
      have h2 : countOk srv n (x :: rest) =
          (if srv.ok n then 1 else 0) + countOk srv (n + 1) rest := rfl
      have e : n + (x :: rest).length = n + 1 + rest.length := by
        simp [List.length_cons]
        omega
      rw [h1, h2, ih t2 (n + 1), e]
      omega

theorem importLoop_count {α : Type} (srv : Server) (mkCall : α → CreateCall) :
    ∀ (n : Nat) (xs : List α),
      (importLoop srv mkCall n xs).count =
        countOk srv n (importLoop srv mkCall n xs).trace := by
  intro n xs
  induction xs generalizing n with
  | nil => rfl
  | cons x rest ih => simp [importLoop, countOk, ih (n + 1)]

/-- Rose-tree induction for snapshot process groups. -/
theorem snapPGInduction {P : SnapPG → Prop}
    (h : ∀ id name pos ps cs is os fs gs, (∀ g ∈ gs, P g) →
      P (.mk id name pos ps cs is os fs gs)) :
    ∀ g, P g
  | .mk id name pos ps cs is os fs gs =>
      h id name pos ps cs is os fs gs (fun g hg =>
        have : sizeOf g < sizeOf (SnapPG.mk id name pos ps cs is os fs gs) := by
          have := List.sizeOf_lt_of_mem hg
          simp only [SnapPG.mk.sizeOf_spec]
          omega
        snapPGInduction h g)
termination_by g => sizeOf g

/-- A replication step result is well-counted at call number `n` when its
count is the number of successful calls of its own trace and its final
call number advances once per issued call. -/
def Counted (srv : Server) (n : Nat) (r : ImpResult) : Prop :=
  r.count = countOk srv n r.trace ∧ r.next = n + r.trace.length

theorem Counted_importLoop {α : Type} (srv : Server) (mkCall : α → CreateCall)
    (n : Nat) (xs : List α) : Counted srv n (importLoop srv mkCall n xs) :=
  ⟨importLoop_count srv mkCall n xs, importLoop_next srv mkCall n xs⟩

theorem Counted_seq {srv : Server} {n : Nat} {r1 r2 : ImpResult}
    (h1 : Counted srv n r1) (h2 : Counted srv r1.next r2) :
    Counted srv n ⟨r1.count + r2.count, r1.trace ++ r2.trace, r2.next⟩ := by
  obtain ⟨c1, n1⟩ := h1
  obtain ⟨c2, n2⟩ := h2
  constructor
  · simp only [countOk_append]
    rw [c1, c2, n1]
  · simp only [List.length_append]
    rw [n2, n1]
    omega

theorem Counted_consOk {srv : Server} {n : Nat} {r : ImpResult}
    (call : CreateCall) (hok : srv.ok n = true) (h : Counted srv (n + 1) r) :
    Counted srv n ⟨1 + r.count, call :: r.trace, r.next⟩ := by
  obtain ⟨c, hn⟩ := h
  constructor
  · simp only [countOk, hok, if_true]
    rw [c]
  · simp only [List.length_cons]
    rw [hn]
    omega

theorem Counted_importChildrenLoop (srv : Server) (gs : List SnapPG)
    (hmem : ∀ g ∈ gs, ∀ parent n,
      Counted srv n (import_process_group_recursively srv parent n g)) :
    ∀ parent n, Counted srv n (importChildrenLoop srv parent n gs) := by
  induction gs with
  | nil => intro parent n; exact ⟨rfl, rfl⟩
  | cons g rest ih =>
      intro parent n
      have h1 := hmem g (by simp) parent n
      have h2 := ih (fun g' h' => hmem g' (by simp [h'])) parent
        ((import_process_group_recursively srv parent n g).next)
      simpa only [importChildrenLoop] using Counted_seq h1 h2

/-- Counting discipline of the recursive import: the returned total is
exactly the number of issued create calls answered with a success
status, and the call counter advances once per issued call. -/
theorem import_pg_counted (srv : Server) :
    ∀ (g : SnapPG) (parent n : Nat),
      Counted srv n (import_process_group_recursively srv parent n g) := by
  intro g
  induction g using snapPGInduction with
  | h id name pos ps cs is os fs gs ihg =>
      intro parent n
      by_cases hok : srv.ok n
      · simp only [import_process_group_recursively, hok, eq_self_iff_true, if_true]
        generalize hr1 : importLoop srv
          (fun c => CreateCall.processor (srv.fresh n) c) (n + 1) ps = r1
        generalize hr2 : importLoop srv
          (fun c => CreateCall.connection (srv.fresh n) c) r1.next cs = r2
        generalize hr3 : importLoop srv
          (fun c => CreateCall.inputPort (srv.fresh n) c) r2.next is = r3
        generalize hr4 : importLoop srv
          (fun c => CreateCall.outputPort (srv.fresh n) c) r3.next os = r4
        generalize hr5 : importLoop srv
          (fun c => CreateCall.funnel (srv.fresh n) c) r4.next fs = r5
        generalize hr6 : importChildrenLoop srv (srv.fresh n) r5.next gs = r6
        have p1 : Counted srv (n + 1) r1 := hr1 ▸ Counted_importLoop srv
          (fun c => CreateCall.processor (srv.fresh n) c) (n + 1) ps
        have p2 : Counted srv r1.next r2 := hr2 ▸ Counted_importLoop srv
          (fun c => CreateCall.connection (srv.fresh n) c) r1.next cs
        have p3 : Counted srv r2.next r3 := hr3 ▸ Counted_importLoop srv
          (fun c => CreateCall.inputPort (srv.fresh n) c) r2.next is
        have p4 : Counted srv r3.next r4 := hr4 ▸ Counted_importLoop srv
          (fun c => CreateCall.outputPort (srv.fresh n) c) r3.next os
        have p5 : Counted srv r4.next r5 := hr5 ▸ Counted_importLoop srv
          (fun c => CreateCall.funnel (srv.fresh n) c) r4.next fs
        have p6 : Counted srv r5.next r6 := hr6 ▸ Counted_importChildrenLoop srv gs
          (fun g' hg' => ihg g' hg') (srv.fresh n) r5.next
        have hfin := Counted_consOk (CreateCall.processGroup parent name pos) hok
          (Counted_seq (Counted_seq (Counted_seq (Counted_seq
            (Counted_seq p1 p2) p3) p4) p5) p6)
        convert hfin using 2
        simp
        omega
      · have hok' : srv.ok n = false := by simpa using hok
        refine ⟨?_, ?_⟩ <;>
          simp [import_process_group_recursively, hok', countOk]

/-- C3 (amended): the value `upload_flow_to_nifi` returns records only
the total of successfully created components — exactly the number of
issued create calls the server answered with success; per-item failure
details are printed, not recorded, so the result carries no failure
information. -/
theorem upload_report_total (srv : Server) (target n : Nat) (flow : SnapPG) :
    (upload_flow_to_nifi srv target n flow).1 =
      ⟨countOk srv n (upload_flow_to_nifi srv target n flow).2.1⟩ := by
  simp only [upload_flow_to_nifi]
  generalize hr0 : importChildrenLoop srv target n flow.children = r0
  generalize hr1 : importLoop srv (fun c => CreateCall.processor target c)
    r0.next flow.processors = r1
  generalize hr2 : importLoop srv (fun c => CreateCall.connection target c)
    r1.next flow.connections = r2
  generalize hr3 : importLoop srv (fun c => CreateCall.inputPort target c)
    r2.next flow.inputPorts = r3
  generalize hr4 : importLoop srv (fun c => CreateCall.outputPort target c)
    r3.next flow.outputPorts = r4
  have p0 : Counted srv n r0 := hr0 ▸ Counted_importChildrenLoop srv flow.children
    (fun g _ => import_pg_counted srv g) target n
  have p1 : Counted srv r0.next r1 := hr1 ▸ Counted_importLoop srv
    (fun c => CreateCall.processor target c) r0.next flow.processors
  have p2 : Counted srv r1.next r2 := hr2 ▸ Counted_importLoop srv
    (fun c => CreateCall.connection target c) r1.next flow.connections
  have p3 : Counted srv r2.next r3 := hr3 ▸ Counted_importLoop srv
    (fun c => CreateCall.inputPort target c) r2.next flow.inputPorts
  have p4 : Counted srv r3.next r4 := hr4 ▸ Counted_importLoop srv
    (fun c => CreateCall.outputPort target c) r3.next flow.outputPorts
  have hc := (Counted_seq (Counted_seq (Counted_seq (Counted_seq p0 p1) p2) p3) p4).1
  simp at hc ⊢
  omega

/-- The two C3 counterexample snapshots: an empty one and one whose only
processor will fail to create. -/
def c3empty : SnapPG := .mk 0 "empty" 0 [] [] [] [] [] []

def c3one : SnapPG := .mk 0 "one" 0 [⟨9, "p"⟩] [] [] [] [] []

/-- C3 counterexample: a clean run over an empty snapshot and a run in
which the single attempted creation failed return the same value — the
returned report holds no kind, identifier or cause for the failed item,
so zero-created-with-failures is not distinguishable from
zero-created-clean. -/
theorem upload_report_counterexample :
    (upload_flow_to_nifi ⟨fun _ => true, fun k => k⟩ 1 0 c3empty).1 =
      (upload_flow_to_nifi ⟨fun _ => false, fun k => k⟩ 1 0 c3one).1 ∧
    (upload_flow_to_nifi ⟨fun _ => true, fun k => k⟩ 1 0 c3empty).2.1 = [] ∧
    (upload_flow_to_nifi ⟨fun _ => false, fun k => k⟩ 1 0 c3one).2.1 =
      [CreateCall.processor 1 ⟨9, "p"⟩] := by
  decide

/-- C10: when the create call for a nested process group gets a
non-success status, the group contributes zero to the total, its whole
subtree is skipped (the only call issued is the group's own failed
create), no per-descendant failure is recorded anywhere, and the sibling
loop continues with the next group at the next call number. -/
theorem import_failed_group_skips (srv : Server) (parent n : Nat) (g : SnapPG)
    (rest : List SnapPG) (hfail : srv.ok n = false) :
    import_process_group_recursively srv parent n g =
      ⟨0, [CreateCall.processGroup parent g.name g.position], n + 1⟩ ∧
    importChildrenLoop srv parent n (g :: rest) =
      ⟨(importChildrenLoop srv parent (n + 1) rest).count,
        CreateCall.processGroup parent g.name g.position ::
          (importChildrenLoop srv parent (n + 1) rest).trace,
        (importChildrenLoop srv parent (n + 1) rest).next⟩ := by
  obtain ⟨id, name, pos, ps, cs, is, os, fs, gs⟩ := g
  have h1 : import_process_group_recursively srv parent n
      (.mk id name pos ps cs is os fs gs) =
      ⟨0, [CreateCall.processGroup parent name pos], n + 1⟩ := by
    simp [import_process_group_recursively, hfail]
  refine ⟨by simpa [SnapPG.name, SnapPG.position] using h1, ?_⟩
  simp only [importChildrenLoop, h1, SnapPG.name, SnapPG.position]
  simp

/-- The C10 witness server (every call fails) and group. -/
def c10srv : Server := ⟨fun _ => false, fun k => k⟩

def c10pg : SnapPG := .mk 3 "child" 0 [⟨8, "inner"⟩] [] [] [] [] []

/-- Witness for C10: the failed group create is the run's only call; the
group with one processor inside contributes zero and its processor is
never attempted. -/
theorem import_failed_group_skips_witness :
    c10srv.ok 0 = false ∧
    import_process_group_recursively c10srv 7 0 c10pg =
      ⟨0, [CreateCall.processGroup 7 "child" 0], 1⟩ :=
  ⟨rfl, (import_failed_group_skips c10srv 7 0 c10pg [] rfl).1⟩

/-- C1 (amended): when the group create succeeds, its contents are
created in the order processors first, then connections (then ports,
funnels, child groups); the i-th processor create call sits at trace
index `i + 1` and the j-th connection create call at the strictly later
index `processors.length + j + 1`, and every create payload is the
snapshot component copied verbatim — a connection's payload carries the
source/destination identifiers stored in the snapshot, not the
identifiers the server newly assigned to the created processors. -/
theorem import_order_and_payload (srv : Server) (parent n : Nat) (g : SnapPG)
    (hok : srv.ok n = true) :
    (∃ m : Nat, (import_process_group_recursively srv parent n g).trace =
      CreateCall.processGroup parent g.name g.position ::
        (g.processors.map (fun c => CreateCall.processor (srv.fresh n) c) ++
        (g.connections.map (fun c => CreateCall.connection (srv.fresh n) c) ++
        (g.inputPorts.map (fun c => CreateCall.inputPort (srv.fresh n) c) ++
        (g.outputPorts.map (fun c => CreateCall.outputPort (srv.fresh n) c) ++
        (g.funnels.map (fun c => CreateCall.funnel (srv.fresh n) c) ++
        (importChildrenLoop srv (srv.fresh n) m g.children).trace)))))) ∧
    (∀ (i : Nat) (p : SnapComp), g.processors[i]? = some p →
      (import_process_group_recursively srv parent n g).trace[i + 1]? =
        some (CreateCall.processor (srv.fresh n) p)) ∧
    (∀ (j : Nat) (c : SnapConn), g.connections[j]? = some c →
      (import_process_group_recursively srv parent n g).trace[g.processors.length + j + 1]? =
        some (CreateCall.connection (srv.fresh n) c)) := by
  obtain ⟨id, name, pos, ps, cs, is, os, fs, gs⟩ := g
  simp only [SnapPG.name, SnapPG.position, SnapPG.processors, SnapPG.connections,
    SnapPG.inputPorts, SnapPG.outputPorts, SnapPG.funnels, SnapPG.children]
  have hdec : ∃ m : Nat, (import_process_group_recursively srv parent n
      (.mk id name pos ps cs is os fs gs)).trace =
      CreateCall.processGroup parent name pos ::
        (ps.map (fun c => CreateCall.processor (srv.fresh n) c) ++
        (cs.map (fun c => CreateCall.connection (srv.fresh n) c) ++
        (is.map (fun c => CreateCall.inputPort (srv.fresh n) c) ++
        (os.map (fun c => CreateCall.outputPort (srv.fresh n) c) ++
        (fs.map (fun c => CreateCall.funnel (srv.fresh n) c) ++
        (importChildrenLoop srv (srv.fresh n) m gs).trace))))) := by
    refine ⟨(importLoop srv (fun c => CreateCall.funnel (srv.fresh n) c)
      (importLoop srv (fun c => CreateCall.outputPort (srv.fresh n) c)
        (importLoop srv (fun c => CreateCall.inputPort (srv.fresh n) c)
          (importLoop srv (fun c => CreateCall.connection (srv.fresh n) c)
            (importLoop srv (fun c => CreateCall.processor (srv.fresh n) c)
              (n + 1) ps).next cs).next is).next os).next fs).next, ?_⟩
    simp [import_process_group_recursively, hok, importLoop_trace]
  obtain ⟨m, hm⟩ := hdec
  refine ⟨⟨m, hm⟩, ?_, ?_⟩
  · intro i p hp
    rw [hm, List.getElem?_cons_succ]
    exact getElem?_append_left_of (getElem?_map_of_getElem?
      (fun c => CreateCall.processor (srv.fresh n) c) hp)
  · intro j c hc
    rw [hm, List.getElem?_cons_succ,
      List.getElem?_append_right (by simp), List.length_map,
      Nat.add_sub_cancel_left]
    exact getElem?_append_left_of (getElem?_map_of_getElem?
      (fun c => CreateCall.connection (srv.fresh n) c) hc)

/-- The C1 counterexample server and snapshot: two processors with
snapshot ids 100 and 101, one connection from 100 to 101; the server
assigns fresh ids 500, 501, 502 to the three successful creates. -/
def c1srv : Server := ⟨fun _ => true, fun k => 500 + k⟩

def c1snap : SnapPG :=
  .mk 42 "g" 0 [⟨100, "A"⟩, ⟨101, "B"⟩] [⟨7, 100, 101⟩] [] [] [] []

/-- C1 counterexample: the processors created by calls 1 and 2 receive
the newly assigned identifiers 501 and 502, yet the connection's create
payload still references 100 and 101 — the identifiers stored in the
snapshot — and no connection payload referencing the new identifiers is
ever sent. -/
theorem import_payload_counterexample :
    (import_process_group_recursively c1srv 1 0 c1snap).trace =
      [CreateCall.processGroup 1 "g" 0,
       CreateCall.processor 500 ⟨100, "A"⟩,
       CreateCall.processor 500 ⟨101, "B"⟩,
       CreateCall.connection 500 ⟨7, 100, 101⟩] ∧
    c1srv.fresh 1 = 501 ∧ c1srv.fresh 2 = 502 ∧
    CreateCall.connection 500 ⟨7, 501, 502⟩ ∉
      (import_process_group_recursively c1srv 1 0 c1snap).trace ∧
    (501 : Nat) ≠ 100 ∧ (502 : Nat) ≠ 101 := by
  decide

/-- Witness for C1 (amended): on the two-processor/one-connection
snapshot the first processor's create call sits at index 1 and the
connection's at index 3, payloads copied verbatim from the snapshot. -/
theorem import_order_and_payload_witness :
    c1srv.ok 0 = true ∧
    c1snap.processors[0]? = some ⟨100, "A"⟩ ∧
    (import_process_group_recursively c1srv 1 0 c1snap).trace[0 + 1]? =
      some (CreateCall.processor (c1srv.fresh 0) ⟨100, "A"⟩) ∧
    c1snap.connections[0]? = some ⟨7, 100, 101⟩ ∧
    (import_process_group_recursively c1srv 1 0 c1snap).trace[c1snap.processors.length + 0 + 1]? =
      some (CreateCall.connection (c1srv.fresh 0) ⟨7, 100, 101⟩) :=
  ⟨rfl, by decide,
    (import_order_and_payload c1srv 1 0 c1snap rfl).2.1 0 ⟨100, "A"⟩ (by decide),
    by decide,
    (import_order_and_payload c1srv 1 0 c1snap rfl).2.2 0 ⟨7, 100, 101⟩ (by decide)⟩

/-- C8 (amended): after the top-level process groups, the upload issues
create calls against the target parent for every top-level Processor,
Connection, InputPort and OutputPort of the snapshot, in that order;
top-level Funnels get no create call (there is no funnel loop at the
top level of `upload_flow_to_nifi`). -/
theorem upload_top_level_components (srv : Server) (target n : Nat)
    (flow : SnapPG) :
    (upload_flow_to_nifi srv target n flow).2.1 =
      (importChildrenLoop srv target n flow.children).trace ++
      (flow.processors.map (fun c => CreateCall.processor target c) ++
      (flow.connections.map (fun c => CreateCall.connection target c) ++
      (flow.inputPorts.map (fun c => CreateCall.inputPort target c) ++
      flow.outputPorts.map (fun c => CreateCall.outputPort target c)))) := by
  simp [upload_flow_to_nifi, importLoop_trace]

/-- The C8 counterexample snapshot: a single top-level funnel. -/
def c8flow : SnapPG := .mk 0 "flow" 0 [] [] [] [] [⟨5, "fnl"⟩] []

/-- C8 counterexample: the snapshot's top level declares one funnel, yet
a fully cooperative upload issues no create call at all. -/
theorem upload_skips_root_funnels :
    c8flow.funnels = [⟨5, "fnl"⟩] ∧
    (upload_flow_to_nifi ⟨fun _ => true, fun k => k⟩ 1 0 c8flow).2.1 = [] := by
  decide


/-- Rose-tree induction for backup flow nodes. -/
theorem flowNodeInduction {P : FlowNode → Prop}
    (h : ∀ ps cs is os fs ls gs, (∀ g ∈ gs, P g) → P (.mk ps cs is os fs ls gs)) :
    ∀ g, P g
  | .mk ps cs is os fs ls gs =>
      h ps cs is os fs ls gs (fun g hg =>
        have : sizeOf g < sizeOf (FlowNode.mk ps cs is os fs ls gs) := by
          have := List.sizeOf_lt_of_mem hg
          simp only [FlowNode.mk.sizeOf_spec]
          omega
        flowNodeInduction h g)
termination_by g => sizeOf g

theorem countChildGroups_pg (gs : List FlowNode)
    (hmem : ∀ g ∈ gs,
      (count_components_recursive g).process_groups = pgNodesBelow g) :
    (countChildGroups gs).process_groups = pgNodesBelowList gs := by
  induction gs with
  | nil => rfl
  | cons g rest ih =>
      simp [countChildGroups, pgNodesBelowList, hmem g (by simp),
        ih (fun g' h' => hmem g' (by simp [h']))]

/-- C4: the backup statistics' `process_groups` entry equals the number
of ProcessGroup nodes in the tree excluding the root node being counted,
at any nesting depth, each nested group counted exactly once. -/
theorem aggregate_process_groups (fc : FlowNode) :
    (count_components_recursive fc).process_groups = pgNodesBelow fc := by
  induction fc using flowNodeInduction with
  | h ps cs is os fs ls gs ihg =>
      simp [count_components_recursive, pgNodesBelow,
        countChildGroups_pg gs ihg]

/-- A byte string the JSON checker accepts cannot start with the two
gzip magic bytes, so the content sniff of `download_backup` always falls
through to the raw bytes on plain JSON input. -/
theorem scanJson_leading_31 (fuel : Nat) (b' : List Nat) :
    scanJson fuel .value (31 :: b') = none := by
  cases fuel with
  | zero => rfl
  | succ f => simp [scanJson, skipWs, isJsonWs, isDigit]

theorem valid_json_not_gzip (b : List Nat) (h : isValidJson b = true) :
    gzip_decompress b = none := by
  match b with
  | [] => rfl
  | [x] => rfl
  | b0 :: b1 :: rest =>
      by_cases h0 : b0 = 31
      · by_cases h1 : b1 = 139
        · subst h0; subst h1
          exfalso
          simp [isValidJson, scanJson_leading_31] at h
        · simp [gzip_decompress, h0, h1]
      · simp [gzip_decompress, h0]

/-- C5: decoding the gzip-compressed bytes of a valid JSON document and
decoding the plain bytes both recover the document unchanged
(decompression is attempted first and falls back to the raw bytes), and
bytes whose sniffed content is not valid JSON produce an error rather
than a flow. -/
theorem decode_snapshot_roundtrip (b : List Nat) :
    (isValidJson b = true →
      decode_snapshot (gzip_compress b) = some b ∧
      decode_snapshot b = some b) ∧
    (isValidJson (sniffed b) = false → decode_snapshot b = none) := by
  constructor
  · intro h
    constructor
    · simp [decode_snapshot, sniffed, gzip_compress, gzip_decompress, h]
    · simp [decode_snapshot, sniffed, valid_json_not_gzip b h, h]
  · intro h
    simp [decode_snapshot, h]

/-- Witness for C5: the two-byte JSON document of an empty object
round-trips through both encodings, and the single byte `A` (valid
neither as gzip nor as JSON) yields an error. -/
theorem decode_snapshot_roundtrip_witness :
    isValidJson [123, 125] = true ∧
    decode_snapshot (gzip_compress [123, 125]) = some [123, 125] ∧
    decode_snapshot [123, 125] = some [123, 125] ∧
    isValidJson (sniffed [65]) = false ∧
    decode_snapshot [65] = none :=
  ⟨by decide,
    ((decode_snapshot_roundtrip [123, 125]).1 (by decide)).1,
    ((decode_snapshot_roundtrip [123, 125]).1 (by decide)).2,
    by decide,
    (decode_snapshot_roundtrip [65]).2 (by decide)⟩

end Nifi
